import Mathlib

/-!
Verification development for the ndx-icephys-meta extension
(src/src/pynwb/ndx_icephys_meta/icephys.py).

The Python classes are shallowly embedded as Lean data types and executable
functions:

* `TableColumn` / `get_hierarchy_column_name` embed the column scan of
  `HierarchicalDynamicTableMixin.get_hierarchy_column_name` (lines 41-54).
  A column object is abstracted to the three facts the scan inspects:
  its name, whether it is a `DynamicTableRegion`, and whether the table it
  references is itself a `HierarchicalDynamicTableMixin`.
* `HTable` embeds a dynamic table whose hierarchy column has already been
  resolved (the claims under study all assume a resolvable hierarchy
  column).  A `node` carries the table name, the row ids, the names and
  per-row cells of the non-hierarchy columns, the hierarchy column name and
  its per-row row groups (lists of row positions in the target), and the
  target table.  A `leaf` is a plain `DynamicTable`.
* `get_targets`, `to_hierarchical_dataframe` and `to_denormalized_dataframe`
  embed the mixin methods of the same names (lines 69-215).  Cells are
  opaque values of a type `V`; the list-to-tuple conversion that the source
  applies to cells of indexed columns (lines 145-146, 194-195) is a pure
  representation change on a cell and is the identity on opaque cells.
  Run-time failures of the Python code (NameError for an unbound local,
  KeyError from a pandas lookup, IndexError from an out-of-range region
  index) are embedded as `Except` errors.
* `TS` / `add_recording` embed `IntracellularRecordingsTable.add_recording`
  (lines 598-698).  A time series is abstracted to the facts the method
  inspects: its name, `num_samples`, `neurodata_type`, whether it is a
  `PatchClampSeries`, and its electrode.  The result of a successful call
  is the pair of stored cells (start, count, series) for the stimuli and
  responses columns; the surrounding table bookkeeping adds one row exactly
  when the call succeeds.
* `CatTable` / `GState` / `alignedInit` / `add_category` / `add_row` /
  `add_column` embed `AlignedDynamicTable` (lines 237-396) at the
  row-count level: a category table is abstracted to its name and row
  count, the main table to its list of row ids.  `alignedInit` follows the
  constructor line by line, including the OrderedDict bookkeeping used for
  the category order and the duplicate checks.  Checks that live in hdmf
  (column data length checks inside `DynamicTable.add_column`) do not
  change row counts and are outside this model.
-/

namespace NdxIcephysMeta

/-! ### HierarchicalDynamicTableMixin.get_hierarchy_column_name (lines 41-54) -/

/-- A column of a DynamicTable, abstracted to the facts inspected by
`get_hierarchy_column_name`: the column name, whether the column is a
`DynamicTableRegion`, and whether its target table is itself a
`HierarchicalDynamicTableMixin` (only meaningful when `isDynamicTableRegion`). -/
structure TableColumn where
  name : String
  isDynamicTableRegion : Bool
  targetIsHierarchical : Bool
deriving DecidableEq, Repr

/-- Loop of `get_hierarchy_column_name`: `first_col` is overwritten by every
`DynamicTableRegion` column encountered, and the scan returns immediately when
a region column references a hierarchical table. -/
def hierColScan : Option String → List TableColumn → Option String
  | firstCol, [] => firstCol
  | firstCol, c :: rest =>
    if c.isDynamicTableRegion then
      if c.targetIsHierarchical then some c.name
      else hierColScan (some c.name) rest
    else hierColScan firstCol rest

/-- `HierarchicalDynamicTableMixin.get_hierarchy_column_name` (lines 48-54). -/
def get_hierarchy_column_name (cols : List TableColumn) : Option String :=
  hierColScan none cols

/-! ### IntracellularRecordingsTable.add_recording (lines 598-698) -/

/-- A TimeSeries, abstracted to the facts inspected by `add_recording`:
`num_samples` (which may be unknown), `neurodata_type`, whether the object is
a `PatchClampSeries`, and the electrode it refers to (by an opaque id). -/
structure TS where
  name : String
  numSamples : Option Nat
  neurodataType : String
  isPatchClampSeries : Bool
  electrodeId : Nat
deriving DecidableEq, Repr

/-- Errors raised by `add_recording`; each constructor corresponds to one
`raise` in the source, with the error message recorded here:

* `bothNone`: ValueError, stimulus and response cannot both be None (619).
* `stimulusCountTypeError` / `responseCountTypeError`: the Python expression
  `num_samples - start_index` fails when `num_samples` is None (628, 641).
* `stimulusStartOutOfRange`: IndexError, stimulus_start_index out of range
  (632-633).
* `stimulusStartPlusCountOutOfRange`: IndexError,
  stimulus_start_index+stimulus_index_count out of range (634-635).
* `responseStartOutOfRange`: IndexError, response_start_index out of range
  (645-646).
* `responseStartPlusCountOutOfRange`: IndexError,
  response_start_index+response_index_count out of range (647-648).
* `incompatibleTypes`: ValueError, incompatible types given for stimulus and
  response (655-661).
* `izeroResponse`: ValueError, stimulus should usually be None for
  IZeroClampSeries response (662-664).
* `electrodeMismatch`: ValueError, electrodes are usually expected to be the
  same (671-673). -/
inductive RecErr where
  | bothNone
  | stimulusCountTypeError
  | responseCountTypeError
  | stimulusStartOutOfRange
  | stimulusStartPlusCountOutOfRange
  | responseStartOutOfRange
  | responseStartPlusCountOutOfRange
  | incompatibleTypes
  | izeroResponse
  | electrodeMismatch
deriving DecidableEq, Repr

/-- Python `str.startswith`: the candidate is a prefix of the string. -/
def strStartsWith (s pre : String) : Bool :=
  List.isPrefixOf pre.data s.data

/-- The effective start index (lines 624, 637): the supplied start when it
is non-negative, else 0. -/
def effStart (startIdx : Int) : Int :=
  if 0 ≤ startIdx then startIdx else 0

/-- The effective index count (lines 626-628, 639-641): the supplied count
when it is non-negative, else the number of samples minus the effective
start. -/
def effCount (n : Nat) (startIdx countIdx : Int) : Int :=
  if 0 ≤ countIdx then countIdx else (n : Int) - effStart startIdx

/-- Lines 623-635: compute the effective stimulus start and count and perform
the stimulus range checks.  The start check uses `>=`
(`stimulus_start_index >= stimulus_num_samples`, line 632). -/
def stimulusIndices (stimulus : Option TS) (startIdx countIdx : Int) :
    Except RecErr (Int × Int) :=
  match stimulus with
  | none => Except.ok (startIdx, countIdx)
  | some s =>
    match s.numSamples with
    | none =>
      if 0 ≤ countIdx then Except.ok (effStart startIdx, countIdx)
      else Except.error RecErr.stimulusCountTypeError
    | some n =>
      if (n : Int) ≤ effStart startIdx then
        Except.error RecErr.stimulusStartOutOfRange
      else if (n : Int) < effStart startIdx + effCount n startIdx countIdx then
        Except.error RecErr.stimulusStartPlusCountOutOfRange
      else Except.ok (effStart startIdx, effCount n startIdx countIdx)

/-- Lines 636-648: compute the effective response start and count and perform
the response range checks.  Unlike the stimulus branch, the start check uses
the strict `>` (`response_start_index > response_num_samples`, line 645). -/
def responseIndices (response : Option TS) (startIdx countIdx : Int) :
    Except RecErr (Int × Int) :=
  match response with
  | none => Except.ok (startIdx, countIdx)
  | some r =>
    match r.numSamples with
    | none =>
      if 0 ≤ countIdx then Except.ok (effStart startIdx, countIdx)
      else Except.error RecErr.responseCountTypeError
    | some n =>
      if (n : Int) < effStart startIdx then
        Except.error RecErr.responseStartOutOfRange
      else if (n : Int) < effStart startIdx + effCount n startIdx countIdx then
        Except.error RecErr.responseStartPlusCountOutOfRange
      else Except.ok (effStart startIdx, effCount n startIdx countIdx)

/-- Lines 622-698 after the both-None check: `stim` and `resp` are the series
after the reassignment of lines 650-652 (each replaced by the other when
None), while `stimOpt` / `respOpt` are the original arguments driving the
index computations.  Note for the IZeroClampSeries guard (lines 662-664):
the source tests `stimulus is not None`, but at that point the local stimulus
variable has already been reassigned and can never be None, so the guard
reduces to the `neurodata_type` test alone. -/
def addRecordingCore (sStartIdx sCountIdx : Int) (stimOpt : Option TS)
    (rStartIdx rCountIdx : Int) (respOpt : Option TS) (stim resp : TS) :
    Except RecErr ((Int × Int × TS) × (Int × Int × TS)) :=
  match stimulusIndices stimOpt sStartIdx sCountIdx with
  | Except.error e => Except.error e
  | Except.ok (sSt, sCt) =>
    match responseIndices respOpt rStartIdx rCountIdx with
    | Except.error e => Except.error e
    | Except.ok (rSt, rCt) =>
      if (strStartsWith resp.neurodataType ("CurrentClamp") &&
            strStartsWith stim.neurodataType ("VoltageClamp")) ||
         (strStartsWith resp.neurodataType ("VoltageClamp") &&
            strStartsWith stim.neurodataType ("CurrentClamp")) then
        Except.error RecErr.incompatibleTypes
      else if resp.neurodataType = "IZeroClampSeries" then
        Except.error RecErr.izeroResponse
      else if resp.isPatchClampSeries && stim.isPatchClampSeries then
        if resp.electrodeId ≠ stim.electrodeId then
          Except.error RecErr.electrodeMismatch
        else Except.ok ((sSt, sCt, stim), (rSt, rCt, resp))
      else Except.ok ((sSt, sCt, stim), (rSt, rCt, resp))

/-- `IntracellularRecordingsTable.add_recording` (lines 598-698), returning
the pair of cells stored in the stimuli and responses columns on success.
The reassignment of lines 650-652 makes both columns point at the same series
when one argument is None. -/
def add_recording (sStartIdx sCountIdx : Int) (stimulus : Option TS)
    (rStartIdx rCountIdx : Int) (response : Option TS) :
    Except RecErr ((Int × Int × TS) × (Int × Int × TS)) :=
  match stimulus, response with
  | none, none => Except.error RecErr.bothNone
  | some s, none => addRecordingCore sStartIdx sCountIdx (some s) rStartIdx rCountIdx none s s
  | none, some r => addRecordingCore sStartIdx sCountIdx none rStartIdx rCountIdx (some r) r r
  | some s, some r => addRecordingCore sStartIdx sCountIdx (some s) rStartIdx rCountIdx (some r) s r

/-! ### The hierarchical table model (HierarchicalDynamicTableMixin, lines 69-215) -/

/-- A dynamic table with a resolved hierarchy column.  `leaf` is a plain
`DynamicTable`; `node` is a table whose `DynamicTableRegion` hierarchy column
has target `target`.  For both, `ids` lists the row ids, `colnames` the names
of the non-hierarchy columns and `rows` their cells row by row (cell values
are opaque values of `V`).  For a `node`, `hcol` gives, row by row, the row
group of the hierarchy column: the list of row positions of the target table
referenced by that row. -/
inductive HTable (V : Type) where
  | leaf (name : String) (ids : List V) (colnames : List String) (rows : List (List V))
  | node (name : String) (ids : List V) (colnames : List String) (rows : List (List V))
      (hcolName : String) (hcol : List (List Nat)) (target : HTable V)
deriving DecidableEq

/-- Whether the table is a `node`, i.e. an `isinstance` of
`HierarchicalDynamicTableMixin` in the source. -/
def isHierarchical {V : Type} : HTable V → Bool
  | HTable.leaf _ _ _ _ => false
  | HTable.node _ _ _ _ _ _ _ => true

/-- The chain of tables reached from a table by repeatedly following the
hierarchy column, in order, ending at the leaf. -/
def targetChain {V : Type} : HTable V → List (HTable V)
  | HTable.leaf _ _ _ _ => []
  | HTable.node _ _ _ _ _ _ target => target :: targetChain target

/-- Run-time failures of the dataframe construction:

* `noHierarchyColumn`: the methods were called on a table with no
  resolvable hierarchy column.
* `nameErrorRowDf`: Python NameError, the local variable row_df of line 166
  is read without having been bound (the loop of line 133 never ran).
* `keyErrorLoc`: Python KeyError raised by the pandas lookup
  hcol_hdf.loc[[...]] of line 187 when the id is absent from the outer
  index level.
* `regionIndexOutOfRange`: a row group references a row position that does
  not exist in the target table. -/
inductive DfErr where
  | noHierarchyColumn
  | nameErrorRowDf
  | keyErrorLoc
  | regionIndexOutOfRange
deriving DecidableEq, Repr

/-- A column label of the output dataframe: either a plain string (an entry
of `row_df.columns` in the flat case) or a 2-tuple (table name, label). -/
inductive ColLabel where
  | flat (s : String)
  | pair (table label : String)
deriving DecidableEq, Repr

/-- The pandas DataFrame produced by the mixin: the names of the index
levels (each a 2-tuple (table name, column name)), the multi-index tuple of
every row, the column labels, and the data cells of every row.  A dataframe
whose index has been reset (`reset_index`) has empty `indexNames` and
`index` and carries all values in `data`. -/
structure DataFrame (V : Type) where
  indexNames : List (String × String)
  index : List (List V)
  columns : List ColLabel
  data : List (List V)
deriving DecidableEq

/-- Map an `Except`-valued function over a list, stopping at the first
error, like a Python for-loop whose body may raise. -/
def mapExcept {α β ε : Type} (f : α → Except ε β) : List α → Except ε (List β)
  | [] => Except.ok []
  | a :: l =>
    match f a with
    | Except.error e => Except.error e
    | Except.ok b =>
      match mapExcept f l with
      | Except.error e => Except.error e
      | Except.ok bs => Except.ok (b :: bs)

/-- Select the rows of the target table referenced by one row group: the
slice `hcol[r]` of the `DynamicTableRegion` column, returning pairs of a row
id and that row's cells. -/
def sliceTarget {V : Type} (xids : List V) (xrows : List (List V)) (g : List Nat) :
    Except DfErr (List (V × List V)) :=
  mapExcept (fun j =>
    match xids.get? j, xrows.get? j with
    | some i, some r => Except.ok (i, r)
    | _, _ => Except.error DfErr.regionIndexOutOfRange) g

/-- `HierarchicalDynamicTableMixin.to_hierarchical_dataframe` (lines
106-215).

Case 1 (lines 129-170), hierarchy column points at a plain table: one output
row per referenced target row, whose data is the target row id followed by
the target cells and whose index tuple is the id of the referencing row
followed by its non-hierarchy cells.  The column labels are
(target name, id) followed by the target column names, plain in the flat
case and paired with the target name otherwise.  When the table has zero
rows and `flat` is true, line 166 reads the loop variable row_df which was
never bound, a Python NameError.

Case 2 (lines 172-210), hierarchy column points at another hierarchical
table: the target is flattened recursively, and for every referenced target
row all rows of the flattened target whose outermost index value equals the
target row id are looked up with `.loc`, which raises KeyError when there is
none.  Each match contributes one output row whose index tuple is the
referencing row id and cells followed by the full index tuple of the match,
and whose data is the data of the match. -/
def to_hierarchical_dataframe {V : Type} [DecidableEq V] (flat : Bool) :
    HTable V → Except DfErr (DataFrame V)
  | HTable.leaf _ _ _ _ => Except.error DfErr.noHierarchyColumn
  | HTable.node name ids colnames rows _ hcol
      (HTable.leaf xname xids xcolnames xrows) =>
    (match mapExcept (sliceTarget xids xrows) hcol with
     | Except.error e => Except.error e
     | Except.ok groups =>
       let triples := (ids.zip rows).zip groups
       let index := triples.flatMap (fun p => p.2.map (fun _ => p.1.1 :: p.1.2))
       let data := triples.flatMap (fun p => p.2.map (fun q => q.1 :: q.2))
       let indexNames := (name, "id") :: colnames.map (fun c => (name, c))
       if flat then
         if hcol.isEmpty then Except.error DfErr.nameErrorRowDf
         else Except.ok ⟨indexNames, index,
           ColLabel.pair xname "id" :: xcolnames.map ColLabel.flat, data⟩
       else Except.ok ⟨indexNames, index,
         ColLabel.pair xname "id" :: xcolnames.map (ColLabel.pair xname), data⟩)
  | HTable.node name ids colnames rows _ hcol
      (HTable.node tname tids tcolnames trows thcolName thcol ttarget) =>
    (match to_hierarchical_dataframe flat
        (HTable.node tname tids tcolnames trows thcolName thcol ttarget) with
     | Except.error e => Except.error e
     | Except.ok hdf =>
       let hdfRows := hdf.index.zip hdf.data
       match mapExcept (fun (p : (V × List V) × List Nat) =>
           match mapExcept (fun j =>
               match tids.get? j with
               | some tid =>
                 (let ms := hdfRows.filter (fun q => q.1.head? = some tid)
                  if ms.isEmpty then Except.error DfErr.keyErrorLoc
                  else Except.ok (ms.map (fun q => ((p.1.1 :: p.1.2) ++ q.1, q.2))))
               | none => Except.error DfErr.regionIndexOutOfRange) p.2 with
           | Except.error e => Except.error e
           | Except.ok cells => Except.ok cells.flatten) ((ids.zip rows).zip hcol) with
       | Except.error e => Except.error e
       | Except.ok perRow =>
         let pairs := perRow.flatten
         Except.ok ⟨((name, "id") :: colnames.map (fun c => (name, c))) ++ hdf.indexNames,
           pairs.map (fun q => q.1), hdf.columns, pairs.map (fun q => q.2)⟩)

/-- `HierarchicalDynamicTableMixin.get_targets` (lines 69-86): when the
immediate target is itself hierarchical, the result is optionally `self`,
then the target, then the targets of the target; otherwise it is just the
target, and `include_self` is not consulted. -/
def get_targets {V : Type} : HTable V → Bool → Except DfErr (List (HTable V))
  | HTable.leaf _ _ _ _, _ => Except.error DfErr.noHierarchyColumn
  | HTable.node name ids colnames rows hcolName hcol target, includeSelf =>
    match target with
    | HTable.leaf _ _ _ _ => Except.ok [target]
    | HTable.node _ _ _ _ _ _ _ =>
      match get_targets target false with
      | Except.error e => Except.error e
      | Except.ok rest =>
        Except.ok ((if includeSelf
            then [HTable.node name ids colnames rows hcolName hcol target] else []) ++
          target :: rest)

/-- pandas `DataFrame.reset_index` (line 96): every index level becomes an
ordinary leading column (labelled by the level name, here always a 2-tuple),
the rows keep their order and values, and the index becomes the default
positional one. -/
def resetIndex {V : Type} (df : DataFrame V) : DataFrame V :=
  ⟨[], [],
    df.indexNames.map (fun p => ColLabel.pair p.1 p.2) ++ df.columns,
    List.zipWith (fun i d => i ++ d) df.index df.data⟩

/-- The per-label transformation of lines 100-101, applied when
`to_denormalized_dataframe` is asked for 2-level column labels: a tuple label
cn of length 2 becomes (cn[0], cn[1]); a plain string label cn becomes
(cn[0], cn[1:]), indexing into the string, which raises IndexError on a
string of length below 2. -/
def miRelabel : ColLabel → Except DfErr ColLabel
  | ColLabel.pair a b => Except.ok (ColLabel.pair a b)
  | ColLabel.flat s =>
    if 2 ≤ s.length then Except.ok (ColLabel.pair (s.take 1) (s.drop 1))
    else Except.error DfErr.regionIndexOutOfRange

/-- `HierarchicalDynamicTableMixin.to_denormalized_dataframe` (lines
88-104): compute `to_hierarchical_dataframe(flat_column_index=True)`, reset
its index, and when `flat` is false rebuild 2-level column labels with
`miRelabel`. -/
def to_denormalized_dataframe {V : Type} [DecidableEq V] (flat : Bool)
    (t : HTable V) : Except DfErr (DataFrame V) :=
  match to_hierarchical_dataframe true t with
  | Except.error e => Except.error e
  | Except.ok hierDf =>
    let flatDf := resetIndex hierDf
    if flat then Except.ok flatDf
    else
      match mapExcept miRelabel flatDf.columns with
      | Except.error e => Except.error e
      | Except.ok cols2 =>
        Except.ok ⟨flatDf.indexNames, flatDf.index, cols2, flatDf.data⟩

/-! ### AlignedDynamicTable (lines 218-396), at the row-count level -/

/-- A category DynamicTable, abstracted to its name and its row count. -/
structure CatTable where
  name : String
  nrows : Nat
deriving DecidableEq, Repr

/-- The state of an AlignedDynamicTable: the row ids of the main table and
the ordered category tables (`category_tables`), each recorded as its name
and row count. -/
structure AlignedState where
  mainIds : List Nat
  categoryTables : List (String × Nat)
deriving DecidableEq, Repr

/-- Errors raised by the AlignedDynamicTable operations; each constructor
corresponds to one `raise` in the source:

* `categoriesButNoTables`: ValueError of line 243.
* `arityMismatch`: ValueError of lines 246-248 (number of tables given,
  number of categories specified).
* `notInCategories`: ValueError of line 269.
* `duplicateTableName`: ValueError of line 272.
* `categoryNotInTables`: ValueError of lines 279-281 (marked unreachable in
  the source).
* `misaligned`: the alignment ValueError of lines 284-286 and 331-333,
  reporting the name, the actual row count and the expected row count.
* `categoryExists`: ValueError of lines 334-335.
* `missingCategories`: ValueError of lines 382-388, listing the categories
  for which no payload was supplied.
* `duplicateRowId`: the hdmf uniqueness error triggered by
  `enforce_unique_id` inside `DynamicTable.add_row`.
* `unknownCategory`: KeyError of lines 361-362. -/
inductive AErr where
  | categoriesButNoTables
  | arityMismatch (ntables ncategories : Nat)
  | notInCategories (name : String)
  | duplicateTableName (name : String)
  | categoryNotInTables (name : String)
  | misaligned (name : String) (actual expected : Nat)
  | categoryExists (name : String)
  | missingCategories (names : List String)
  | duplicateRowId (id : Nat)
  | unknownCategory (name : String)
deriving DecidableEq, Repr

/-- Helper for `dedupKeys`: keep the keys not seen yet, in order. -/
def dedupGo (seen : List String) : List String → List String
  | [] => []
  | k :: ks => if k ∈ seen then dedupGo seen ks else k :: dedupGo (k :: seen) ks

/-- Key list of the Python OrderedDict built from a key list: first
occurrences in order, later duplicates dropped. -/
def dedupKeys (l : List String) : List String :=
  dedupGo [] l

/-- Lookup in an association list, first match wins (Python dict access). -/
def lookupIdx : List (String × Int) → String → Option Int
  | [], _ => none
  | p :: l, k => if p.1 = k then some p.2 else lookupIdx l k

/-- Assignment `lookup_index[key] = value` on an association list with the
key already present: the bound value is replaced in place. -/
def updateAssoc (l : List (String × Int)) (k : String) (v : Int) :
    List (String × Int) :=
  l.map (fun p => if p.1 = k then (p.1, v) else p)

/-- The loop of lines 266-273: check every supplied category table against
the lookup index, rejecting names that are not in the categories list and
duplicated table names, and record each table's position. -/
def assignIndices : List (String × Int) → Nat → List CatTable →
    Except AErr (List (String × Int))
  | lk, _, [] => Except.ok lk
  | lk, i, t :: ts =>
    match lookupIdx lk t.name with
    | none => Except.error (AErr.notInCategories t.name)
    | some v =>
      if 0 ≤ v then Except.error (AErr.duplicateTableName t.name)
      else assignIndices (updateAssoc lk t.name (i : Int)) (i + 1) ts

/-- The loop of lines 274-288: walk the lookup index in category order,
check that every category table has exactly as many rows as the main table,
and build `category_tables`. -/
def checkAlignment (tables : List CatTable) (mainLen : Nat) :
    List (String × Int) → Except AErr (List (String × Nat))
  | [] => Except.ok []
  | (nm, idx) :: rest =>
    if idx < 0 then Except.error (AErr.categoryNotInTables nm)
    else
      match tables.get? idx.toNat with
      | none => Except.error (AErr.categoryNotInTables nm)
      | some cat =>
        if cat.nrows ≠ mainLen then
          Except.error (AErr.misaligned cat.name cat.nrows mainLen)
        else
          match checkAlignment tables mainLen rest with
          | Except.error e => Except.error e
          | Except.ok rest2 => Except.ok ((cat.name, cat.nrows) :: rest2)

/-- Lines 254-261: when category tables are given and the main id column is
empty, the main table ids are auto-populated with
0 .. len(first category table) - 1. -/
def autoMainIds (mainIds : List Nat) (ts : List CatTable) : List Nat :=
  match ts with
  | [] => mainIds
  | t0 :: _ => if mainIds.isEmpty then List.range t0.nrows else mainIds

/-- `AlignedDynamicTable.__init__` (lines 237-290).  `mainIds` is the id
column of the main table after `DynamicTable.__init__` (empty when the
caller supplied neither ids nor main-table columns). -/
def alignedInit (mainIds : List Nat) (inCategoryTables : Option (List CatTable))
    (inCategories : Option (List String)) : Except AErr AlignedState :=
  match inCategoryTables with
  | none =>
    match inCategories with
    | some _ => Except.error AErr.categoriesButNoTables
    | none => Except.ok ⟨mainIds, []⟩
  | some ts =>
    let cs := inCategories.getD (ts.map (fun t => t.name))
    if cs.length ≠ ts.length then
      Except.error (AErr.arityMismatch ts.length cs.length)
    else
      let lk0 := (dedupKeys cs).map (fun k => (k, (-1 : Int)))
      match assignIndices lk0 0 ts with
      | Except.error e => Except.error e
      | Except.ok lk =>
        match checkAlignment ts (autoMainIds mainIds ts).length lk with
        | Except.error e => Except.error e
        | Except.ok dts => Except.ok ⟨autoMainIds mainIds ts, dts⟩

/-- `AlignedDynamicTable.add_category` (lines 319-337): the alignment check
comes first, then the duplicate-name check, and only then is the category
appended. -/
def add_category (s : AlignedState) (category : CatTable) :
    Except AErr AlignedState :=
  if category.nrows ≠ s.mainIds.length then
    Except.error (AErr.misaligned category.name category.nrows s.mainIds.length)
  else if s.categoryTables.any (fun p => p.1 = category.name) then
    Except.error (AErr.categoryExists category.name)
  else Except.ok ⟨s.mainIds, s.categoryTables ++ [(category.name, category.nrows)]⟩

/-- `AlignedDynamicTable.add_row` (lines 365-396) at the row-count level:
`suppliedCategories` is the set of category names for which the payload has
a sub-dictionary.  If any category is missing the call fails before any
table is touched; otherwise the main table gains one row (with the given or
the next id) and every category table gains one row. -/
def add_row (s : AlignedState) (suppliedCategories : List String)
    (rowId : Option Nat) (enforceUniqueId : Bool) : Except AErr AlignedState :=
  let missing := (s.categoryTables.map (fun p => p.1)).filter
    (fun n => ¬ suppliedCategories.contains n)
  if ¬ missing.isEmpty then Except.error (AErr.missingCategories missing)
  else
    let newId := rowId.getD s.mainIds.length
    if enforceUniqueId ∧ rowId.isSome ∧ newId ∈ s.mainIds then
      Except.error (AErr.duplicateRowId newId)
    else
      Except.ok ⟨s.mainIds ++ [newId],
        s.categoryTables.map (fun p => (p.1, p.2 + 1))⟩

/-- `AlignedDynamicTable.add_column` (lines 343-363) at the row-count level:
the column is routed to the main table or to the named category; an unknown
category name fails; row counts never change. -/
def add_column (s : AlignedState) (category : Option String) :
    Except AErr AlignedState :=
  match category with
  | none => Except.ok s
  | some c =>
    if s.categoryTables.any (fun p => p.1 = c) then Except.ok s
    else Except.error (AErr.unknownCategory c)

/-- One mutating operation on an AlignedDynamicTable. -/
inductive AOp where
  | addCategory (category : CatTable)
  | addRow (suppliedCategories : List String) (rowId : Option Nat)
      (enforceUniqueId : Bool)
  | addColumn (category : Option String)

/-- Apply one operation. -/
def applyOp (s : AlignedState) : AOp → Except AErr AlignedState
  | AOp.addCategory c => add_category s c
  | AOp.addRow sup rid enf => add_row s sup rid enf
  | AOp.addColumn cat => add_column s cat

/-- Apply a sequence of operations, stopping at the first failure. -/
def runOps (s : AlignedState) : List AOp → Except AErr AlignedState
  | [] => Except.ok s
  | op :: ops =>
    match applyOp s op with
    | Except.error e => Except.error e
    | Except.ok s2 => runOps s2 ops

/-- The alignment invariant: every category table has exactly as many rows
as the main table. -/
def alignedInv (s : AlignedState) : Prop :=
  ∀ p ∈ s.categoryTables, p.2 = s.mainIds.length

/-! ### Helper definitions for statements and concrete instances -/

/-- The association list the constructor loop of lines 266-273 produces for
a duplicate-free list of category tables: each table name bound to its
position, starting at `i`. -/
def idxFrom (i : Nat) : List CatTable → List (String × Int)
  | [] => []
  | t :: ts => (t.name, (i : Int)) :: idxFrom (i + 1) ts

/-- A plain base table with no rows, used for the `get_targets` example. -/
def exLeaf : HTable Nat := HTable.leaf ("level0") [] [] []

/-- A 2-level table whose immediate target is the plain table `exLeaf`. -/
def exNode : HTable Nat :=
  HTable.node ("level1") [] [] [] ("child_table_refs") [] exLeaf

/-- An empty 2-level table over a 4-row base table, the empty-table edge
case of the spec. -/
def exEmptyLevel1 : HTable Nat :=
  HTable.node ("level1") [] [] [] ("child_table_refs") []
    (HTable.leaf ("level0") [10, 11, 12, 13] [] [[], [], [], []])

/-- A current-clamp series with five samples. -/
def exSeries : TS := ⟨("series0"), some 5, ("CurrentClampSeries"), true, 0⟩

/-- An IZeroClampSeries response with five samples. -/
def exIzero : TS := ⟨("izero0"), some 5, ("IZeroClampSeries"), true, 0⟩

/-! ### Theorems -/

/-- Claim C3 (code bug, evaluation at the failing input): on a table whose
columns are two DynamicTableRegion columns a and b, neither of which
references a hierarchical table, `get_hierarchy_column_name` returns the
LAST-seen reference column b, because the loop of lines 49-53 overwrites
first_col at every region column.  The claim, and the assumption stated in
the mixin docstring (lines 32-36), require the first-seen column a. -/
theorem c3_scan_returns_last_not_first :
    get_hierarchy_column_name
        [⟨("a"), true, false⟩, ⟨("b"), true, false⟩] = some ("b") ∧
      some ("b") ≠ some ("a") := by
  exact ⟨rfl, by decide⟩

/-- Claim C4 (counterexample): on a 2-level hierarchy whose immediate target
is already the leaf, `get_targets` with include_self true returns only the
leaf; self is not prepended, contrary to the claim. -/
theorem c4_counterexample_include_self_ignored_at_leaf :
    get_targets exNode true = Except.ok [exLeaf] ∧
      ([exLeaf] : List (HTable Nat)) ≠ [exNode, exLeaf] := by
  exact ⟨rfl, by decide⟩

/-- When `include_self` is false, `get_targets` on a hierarchical table
returns exactly the chain of tables obtained by repeatedly following the
hierarchy column, ending at the leaf. -/
theorem get_targets_no_self {V : Type} :
    ∀ t : HTable V, isHierarchical t = true →
      get_targets t false = Except.ok (targetChain t)
  | HTable.leaf _ _ _ _, h => by simp [isHierarchical] at h
  | HTable.node _ _ _ _ _ _ (HTable.leaf xn xi xc xr), _ => by
    simp [get_targets, targetChain]
  | HTable.node _ _ _ _ _ _ (HTable.node tn ti tc tr thn tg tt), _ => by
    rw [get_targets,
      get_targets_no_self (HTable.node tn ti tc tr thn tg tt) rfl]
    simp [targetChain]

/-- Claim C4 (amended): for every table with a resolvable hierarchy column,
`get_targets` returns the ordered chain of tables reached by repeatedly
following the hierarchy column, ending at the leaf; when include_self is
true the table itself is prepended ONLY when its immediate target is itself
hierarchical — in the 2-level case (immediate target already the leaf) the
include_self flag is ignored and the result is just the leaf. -/
theorem c4_get_targets_chain {V : Type} (name : String) (ids : List V)
    (colnames : List String) (rows : List (List V)) (hcolName : String)
    (hcol : List (List Nat)) (target : HTable V) (includeSelf : Bool) :
    get_targets (HTable.node name ids colnames rows hcolName hcol target)
        includeSelf =
      Except.ok
        ((if includeSelf && isHierarchical target
            then [HTable.node name ids colnames rows hcolName hcol target]
            else []) ++
          targetChain (HTable.node name ids colnames rows hcolName hcol target)) := by
  cases target with
  | leaf xn xi xc xr =>
    simp [get_targets, targetChain, isHierarchical]
  | node tn ti tc tr thn tg tt =>
    rw [get_targets, get_targets_no_self (HTable.node tn ti tc tr thn tg tt) rfl]
    cases includeSelf <;> simp [targetChain, isHierarchical]

/-- Claim C5 (code bug, evaluation at the failing input): on an empty
2-level table over a 4-row base table, `to_hierarchical_dataframe` with
flat_column_index false returns the expected zero-row dataframe with
columns [(level0, id)] and index level names [(level1, id)], but with
flat_column_index true it fails: line 166 reads the loop variable row_df,
which is never bound when the table has zero rows (a Python NameError),
instead of returning the same zero-row structure. -/
theorem c5_empty_table_flat_column_index_fails :
    to_hierarchical_dataframe false exEmptyLevel1 =
        Except.ok ⟨[(("level1"), ("id"))], [],
          [ColLabel.pair ("level0") ("id")], []⟩ ∧
      to_hierarchical_dataframe true exEmptyLevel1 =
        Except.error DfErr.nameErrorRowDf := by
  exact ⟨rfl, rfl⟩

/-- Claim C7 (counterexample): a call whose response start index equals the
number of samples (5 of 5, with the count defaulted) is accepted and the row
is added with the degenerate response cell (5, 0, series); the claim
requires an IndexError for start at or beyond N also on the response side,
but line 645 checks with the strict `>` while line 632 checks the stimulus
with `>=`. -/
theorem c7_counterexample_response_start_at_length_accepted :
    add_recording (-1) (-1) (some exSeries) 5 (-1) (some exSeries) =
      Except.ok ((0, 5, exSeries), (5, 0, exSeries)) := rfl

/-- Claim C7 (amended): for series of known sample counts N and M, the call
raises an IndexError and adds no row when the effective stimulus start is at
or beyond N, when the effective response start is STRICTLY beyond M (a
response start exactly at M is accepted, unlike the stimulus side), and when
the effective start plus count exceeds the sample count for either series
(checked for the response only after the stimulus checks passed). -/
theorem c7_amended_range_checks (S R : TS) (N M : Nat)
    (sStartIdx sCountIdx rStartIdx rCountIdx : Int)
    (hS : S.numSamples = some N) (hR : R.numSamples = some M) :
    ((N : Int) ≤ effStart sStartIdx →
      add_recording sStartIdx sCountIdx (some S) rStartIdx rCountIdx (some R) =
        Except.error RecErr.stimulusStartOutOfRange) ∧
    (effStart sStartIdx < (N : Int) →
      (N : Int) < effStart sStartIdx + effCount N sStartIdx sCountIdx →
      add_recording sStartIdx sCountIdx (some S) rStartIdx rCountIdx (some R) =
        Except.error RecErr.stimulusStartPlusCountOutOfRange) ∧
    (effStart sStartIdx < (N : Int) →
      effStart sStartIdx + effCount N sStartIdx sCountIdx ≤ (N : Int) →
      (M : Int) < effStart rStartIdx →
      add_recording sStartIdx sCountIdx (some S) rStartIdx rCountIdx (some R) =
        Except.error RecErr.responseStartOutOfRange) ∧
    (effStart sStartIdx < (N : Int) →
      effStart sStartIdx + effCount N sStartIdx sCountIdx ≤ (N : Int) →
      effStart rStartIdx ≤ (M : Int) →
      (M : Int) < effStart rStartIdx + effCount M rStartIdx rCountIdx →
      add_recording sStartIdx sCountIdx (some S) rStartIdx rCountIdx (some R) =
        Except.error RecErr.responseStartPlusCountOutOfRange) := by
  refine ⟨?_, ?_, ?_, ?_⟩
  · intro h1
    have hstim : stimulusIndices (some S) sStartIdx sCountIdx =
        Except.error RecErr.stimulusStartOutOfRange := by
      simp only [stimulusIndices, hS]
      rw [if_pos h1]
    simp [add_recording, addRecordingCore, hstim]
  · intro h1 h2
    have hstim : stimulusIndices (some S) sStartIdx sCountIdx =
        Except.error RecErr.stimulusStartPlusCountOutOfRange := by
      simp only [stimulusIndices, hS]
      rw [if_neg (not_le.mpr h1), if_pos h2]
    simp [add_recording, addRecordingCore, hstim]
  · intro h1 h2 h3
    have hstim : stimulusIndices (some S) sStartIdx sCountIdx =
        Except.ok (effStart sStartIdx, effCount N sStartIdx sCountIdx) := by
      simp only [stimulusIndices, hS]
      rw [if_neg (not_le.mpr h1), if_neg (not_lt.mpr h2)]
    have hresp : responseIndices (some R) rStartIdx rCountIdx =
        Except.error RecErr.responseStartOutOfRange := by
      simp only [responseIndices, hR]
      rw [if_pos h3]
    simp [add_recording, addRecordingCore, hstim, hresp]
  · intro h1 h2 h3 h4
    have hstim : stimulusIndices (some S) sStartIdx sCountIdx =
        Except.ok (effStart sStartIdx, effCount N sStartIdx sCountIdx) := by
      simp only [stimulusIndices, hS]
      rw [if_neg (not_le.mpr h1), if_neg (not_lt.mpr h2)]
    have hresp : responseIndices (some R) rStartIdx rCountIdx =
        Except.error RecErr.responseStartPlusCountOutOfRange := by
      simp only [responseIndices, hR]
      rw [if_neg (not_lt.mpr h3), if_pos h4]
    simp [add_recording, addRecordingCore, hstim, hresp]

/-- Claim C7 (witness for the amended theorem): a stimulus start of 5 on a
5-sample series is rejected. -/
theorem c7_amended_witness :
    add_recording 5 (-1) (some exSeries) (-1) (-1) (some exSeries) =
      Except.error RecErr.stimulusStartOutOfRange :=
  (c7_amended_range_checks exSeries exSeries 5 5 5 (-1) (-1) (-1) rfl rfl).1
    (by decide)

/-- No neurodata type string starts with both CurrentClamp and VoltageClamp,
so the incompatibility check of lines 655-661 never fires when stimulus and
response are the same series. -/
theorem ccvc_not_both (s : String) :
    ¬ (strStartsWith s ("CurrentClamp") = true ∧
        strStartsWith s ("VoltageClamp") = true) := by
  rintro ⟨h1, h2⟩
  have e1 : ("CurrentClamp").data = 'C' :: ("urrentClamp").data := rfl
  have e2 : ("VoltageClamp").data = 'V' :: ("oltageClamp").data := rfl
  unfold strStartsWith at h1 h2
  rw [e1] at h1
  rw [e2] at h2
  cases hd : s.data with
  | nil =>
    rw [hd] at h1
    simp [List.isPrefixOf] at h1
  | cons c cs =>
    rw [hd] at h1 h2
    simp only [List.isPrefixOf, Bool.and_eq_true, beq_iff_eq] at h1 h2
    exact absurd (h1.1.trans h2.1.symm) (by decide)

/-- Claim C8: when exactly one of stimulus and response is supplied (a
series R with N samples, not an IZeroClampSeries) and the index arguments
are left at their defaults, the call succeeds and the added row stores the
same series R in both columns: the missing side keeps the sentinel
(-1, -1, R) and the supplied side gets (0, N, R). -/
theorem c8_single_series_row (R : TS) (N : Nat) (hN : R.numSamples = some N)
    (hIZ : R.neurodataType ≠ "IZeroClampSeries") :
    add_recording (-1) (-1) none (-1) (-1) (some R) =
        Except.ok ((-1, -1, R), (0, (N : Int), R)) ∧
      (0 < N →
        add_recording (-1) (-1) (some R) (-1) (-1) none =
          Except.ok ((0, (N : Int), R), (-1, -1, R))) := by
  have heff0 : effStart (-1) = 0 := rfl
  have heffc : effCount N (-1) (-1) = (N : Int) := by
    norm_num [effCount, effStart]
  have hresp : responseIndices (some R) (-1) (-1) =
      Except.ok (0, (N : Int)) := by
    simp only [responseIndices, hN, heff0, heffc]
    rw [if_neg (by omega), if_neg (by omega)]
  have hcompat :
      ((strStartsWith R.neurodataType ("CurrentClamp") &&
          strStartsWith R.neurodataType ("VoltageClamp")) ||
        (strStartsWith R.neurodataType ("VoltageClamp") &&
          strStartsWith R.neurodataType ("CurrentClamp"))) = false := by
    cases hc : strStartsWith R.neurodataType ("CurrentClamp") with
    | false => simp
    | true =>
      cases hv : strStartsWith R.neurodataType ("VoltageClamp") with
      | false => simp
      | true => exact absurd ⟨hc, hv⟩ (ccvc_not_both _)
  constructor
  · simp only [add_recording, addRecordingCore, hresp]
    simp only [stimulusIndices]
    rw [hcompat]
    simp only [Bool.false_eq_true, if_false, if_neg hIZ]
    cases hb : R.isPatchClampSeries <;> simp [hb]
  · intro hpos
    have hstim : stimulusIndices (some R) (-1) (-1) =
        Except.ok (0, (N : Int)) := by
      simp only [stimulusIndices, hN, heff0, heffc]
      rw [if_neg (by omega), if_neg (by omega)]
    simp only [add_recording, addRecordingCore, hstim]
    simp only [responseIndices]
    rw [hcompat]
    simp only [Bool.false_eq_true, if_false, if_neg hIZ]
    cases hb : R.isPatchClampSeries <;> simp [hb]

/-- Claim C8 (witness): with a concrete 5-sample current-clamp series as the
response and no stimulus, the stored cells are (-1, -1, R) and (0, 5, R). -/
theorem c8_witness :
    add_recording (-1) (-1) none (-1) (-1) (some exSeries) =
      Except.ok ((-1, -1, exSeries), (0, 5, exSeries)) :=
  (c8_single_series_row exSeries 5 rfl (by decide)).1

/-- Claim C9: a call whose response has neurodata_type IZeroClampSeries and
default index arguments always fails with the ValueError of lines 662-664
and adds no row, whether a stimulus is supplied (with known positive sample
count) or not: the None stimulus is first replaced by the response at lines
650-652, so the stimulus-is-not-None part of the guard is always satisfied
and an IZeroClampSeries response can never be recorded. -/
theorem c9_izero_response_always_rejected (stimOpt : Option TS) (R : TS)
    (N : Nat) (hN : R.numSamples = some N)
    (hIZ : R.neurodataType = "IZeroClampSeries")
    (hstim : ∀ s, stimOpt = some s → ∃ M, s.numSamples = some M ∧ 0 < M) :
    add_recording (-1) (-1) stimOpt (-1) (-1) (some R) =
      Except.error RecErr.izeroResponse := by
  have heff0 : effStart (-1) = 0 := rfl
  have heffc : effCount N (-1) (-1) = (N : Int) := by
    norm_num [effCount, effStart]
  have hresp : responseIndices (some R) (-1) (-1) =
      Except.ok (0, (N : Int)) := by
    simp only [responseIndices, hN, heff0, heffc]
    rw [if_neg (by omega), if_neg (by omega)]
  have hcfalse : strStartsWith ("IZeroClampSeries") ("CurrentClamp") = false := rfl
  have hvfalse : strStartsWith ("IZeroClampSeries") ("VoltageClamp") = false := rfl
  cases stimOpt with
  | none =>
    simp only [add_recording, addRecordingCore, hresp, stimulusIndices]
    rw [hIZ, hcfalse, hvfalse]
    simp
  | some s =>
    obtain ⟨M, hM, hMpos⟩ := hstim s rfl
    have heffcM : effCount M (-1) (-1) = (M : Int) := by
      norm_num [effCount, effStart]
    have hstimOk : stimulusIndices (some s) (-1) (-1) =
        Except.ok (0, (M : Int)) := by
      simp only [stimulusIndices, hM, heff0, heffcM]
      rw [if_neg (by omega), if_neg (by omega)]
    simp only [add_recording, addRecordingCore, hstimOk, hresp]
    rw [hIZ, hcfalse, hvfalse]
    simp

/-- Claim C9 (witness): a concrete IZeroClampSeries response with no
stimulus is rejected. -/
theorem c9_witness :
    add_recording (-1) (-1) none (-1) (-1) (some exIzero) =
      Except.error RecErr.izeroResponse :=
  c9_izero_response_always_rejected none exIzero 5 rfl rfl
    (fun _ hs => Option.noConfusion hs)

/-- When every element of the list is mapped to a success satisfying `P`,
`mapExcept` succeeds and the results satisfy `P` pointwise. -/
theorem mapExcept_forall₂ {α β ε : Type} (f : α → Except ε β) (P : β → α → Prop)
    (l : List α) (h : ∀ a ∈ l, ∃ b, f a = Except.ok b ∧ P b a) :
    ∃ out, mapExcept f l = Except.ok out ∧ List.Forall₂ P out l := by
  induction l with
  | nil => exact ⟨[], rfl, List.Forall₂.nil⟩
  | cons a l ih =>
    obtain ⟨b, hb, hP⟩ := h a (List.mem_cons_self a l)
    obtain ⟨out, hout, hF⟩ := ih (fun x hx => h x (List.mem_cons_of_mem a hx))
    exact ⟨b :: out, by simp [mapExcept, hb, hout], List.Forall₂.cons hP hF⟩

/-- A row group whose entries are valid row positions of the target slices
successfully, producing one selected row per entry. -/
theorem sliceTarget_ok {V : Type} (xids : List V) (xrows : List (List V))
    (g : List Nat) (h : ∀ j ∈ g, j < xids.length ∧ j < xrows.length) :
    ∃ out, sliceTarget xids xrows g = Except.ok out ∧ out.length = g.length := by
  unfold sliceTarget
  have hall : ∀ j ∈ g, ∃ b, (match xids.get? j, xrows.get? j with
      | some i, some r => Except.ok (i, r)
      | _, _ => Except.error DfErr.regionIndexOutOfRange) =
        Except.ok b ∧ True := by
    intro j hj
    rcases h j hj with ⟨h1, h2⟩
    cases hx : xids.get? j with
    | none => exact absurd (List.get?_eq_none.mp hx) (not_le.mpr h1)
    | some v =>
      cases hy : xrows.get? j with
      | none => exact absurd (List.get?_eq_none.mp hy) (not_le.mpr h2)
      | some r => exact ⟨(v, r), rfl, trivial⟩
  obtain ⟨out, hout, hF⟩ := mapExcept_forall₂ _ (fun _ _ => True) g hall
  exact ⟨out, hout, hF.length_eq⟩

/-- Shape of the flattened rows of case 1 of `to_hierarchical_dataframe`:
the number of emitted rows is the sum of the group lengths, and the
outermost index values are each referencing row id repeated once per row of
its group. -/
theorem flattenCase1_shape {V : Type} :
    ∀ (ids : List V) (rows : List (List V)) (hcol : List (List Nat))
      (groups : List (List (V × List V))),
      ids.length = hcol.length → rows.length = hcol.length →
      List.Forall₂ (fun (o : List (V × List V)) (g : List Nat) =>
        o.length = g.length) groups hcol →
      ((((ids.zip rows).zip groups).flatMap
          (fun p => p.2.map (fun q => q.1 :: q.2))).length =
        (hcol.map List.length).sum ∧
      (((ids.zip rows).zip groups).flatMap
          (fun p => p.2.map (fun _ => p.1.1 :: p.1.2))).map List.head? =
        (ids.zip hcol).flatMap
          (fun q => List.replicate q.2.length (some q.1))) := by
  intro ids rows hcol groups hi hr hF
  induction hF generalizing ids rows with
  | nil =>
    have h1 : ids = [] := List.length_eq_zero.mp hi
    have h2 : rows = [] := List.length_eq_zero.mp hr
    subst h1; subst h2
    simp
  | @cons o g groups1 hcol1 hog hrest ih =>
    cases ids with
    | nil => simp at hi
    | cons i ids1 =>
      cases rows with
      | nil => simp at hr
      | cons r rows1 =>
        have hi1 : ids1.length = hcol1.length := by simpa using hi
        have hr1 : rows1.length = hcol1.length := by simpa using hr
        obtain ⟨ih1, ih2⟩ := ih ids1 rows1 hi1 hr1
        constructor
        · simp [ih1, hog]
        · simp only [List.zip_cons_cons, List.flatMap_cons, List.map_append,
            List.map_map, ih2]
          congr 1
          simp only [Function.comp_def, List.head?_cons]
          rw [List.map_const', hog]

/-- Claim C1: for a 2-level hierarchy whose hierarchy column points at a
leaf table, with aligned column lists and valid row groups,
`to_hierarchical_dataframe()` succeeds and its number of rows is the sum
over the rows of the table of the length of the referenced row group;
moreover the outermost index values are exactly each row id repeated once
per member of its group (so in the concrete 4-row scenario the id 0 appears
twice). -/
theorem c1_flatten_row_count {V : Type} [DecidableEq V]
    (name hcolName xname : String) (ids : List V) (colnames : List String)
    (rows : List (List V)) (hcol : List (List Nat)) (xids : List V)
    (xcolnames : List String) (xrows : List (List V))
    (hi : ids.length = hcol.length) (hr : rows.length = hcol.length)
    (hvalid : ∀ g ∈ hcol, ∀ j ∈ g, j < xids.length ∧ j < xrows.length) :
    ∃ df, to_hierarchical_dataframe false
        (HTable.node name ids colnames rows hcolName hcol
          (HTable.leaf xname xids xcolnames xrows)) = Except.ok df ∧
      df.data.length = (hcol.map List.length).sum ∧
      df.index.map List.head? =
        (ids.zip hcol).flatMap (fun q => List.replicate q.2.length (some q.1)) := by
  obtain ⟨groups, hgroups, hF⟩ := mapExcept_forall₂ (sliceTarget xids xrows)
    (fun o g => o.length = g.length) hcol
    (fun g hg => sliceTarget_ok xids xrows g (hvalid g hg))
  obtain ⟨h1, h2⟩ := flattenCase1_shape ids rows hcol groups hi hr hF
  refine ⟨⟨(name, ("id")) :: colnames.map (fun c => (name, c)),
      ((ids.zip rows).zip groups).flatMap (fun p => p.2.map (fun _ => p.1.1 :: p.1.2)),
      ColLabel.pair xname ("id") :: xcolnames.map (ColLabel.pair xname),
      ((ids.zip rows).zip groups).flatMap (fun p => p.2.map (fun q => q.1 :: q.2))⟩,
    ?_, h1, h2⟩
  simp [to_hierarchical_dataframe, hgroups]

/-- Claim C1 (witness): the concrete scenario of the spec: level-1 table
with ids 0, 1, 2 and groups [0, 1], [2], [3] over a 4-row base table; the
flattened dataframe has 4 rows and the outermost index value 0 appears
twice. -/
theorem c1_witness :
    ∃ df, to_hierarchical_dataframe false
        (HTable.node ("level1") [0, 1, 2] [] [[], [], []] ("child_table_refs")
          [[0, 1], [2], [3]]
          (HTable.leaf ("level0") [10, 11, 12, 13] [] [[], [], [], []])) =
        Except.ok df ∧
      df.data.length = 4 ∧
      (df.index.map List.head?).count (some 0) = 2 := by
  obtain ⟨df, h1, h2, h3⟩ := c1_flatten_row_count (V := Nat) ("level1")
    ("child_table_refs") ("level0") [0, 1, 2] [] [[], [], []]
    [[0, 1], [2], [3]] [10, 11, 12, 13] [] [[], [], [], []]
    (by decide) (by decide) (by decide)
  refine ⟨df, h1, ?_, ?_⟩
  · rw [h2]; decide
  · rw [h3]; decide

/-- Claim C6: `to_denormalized_dataframe(flat_column_index=True)` equals
`to_hierarchical_dataframe(flat_column_index=True)` with every index level
moved into ordinary leading columns (labelled by the level names) and each
row the concatenation of its index tuple and its data cells, preserving row
order and all cell values. -/
theorem c6_denormalized_eq_reset_hierarchical {V : Type} [DecidableEq V]
    (t : HTable V) (df : DataFrame V)
    (h : to_hierarchical_dataframe true t = Except.ok df) :
    to_denormalized_dataframe true t =
      Except.ok ⟨[], [],
        df.indexNames.map (fun p => ColLabel.pair p.1 p.2) ++ df.columns,
        List.zipWith (fun i d => i ++ d) df.index df.data⟩ := by
  simp [to_denormalized_dataframe, h, resetIndex]

/-- Claim C6 (witness): concrete 2-level instance. -/
theorem c6_witness :
    to_denormalized_dataframe true
        (HTable.node ("lvl1") [5] [] [[]] ("refs") [[0]]
          (HTable.leaf ("lvl0") [7] [] [[]])) =
      Except.ok ⟨[], [],
        [ColLabel.pair ("lvl1") ("id"), ColLabel.pair ("lvl0") ("id")],
        [[5, 7]]⟩ :=
  c6_denormalized_eq_reset_hierarchical
    (HTable.node ("lvl1") [5] [] [[]] ("refs") [[0]]
      (HTable.leaf ("lvl0") [7] [] [[]]))
    ⟨[(("lvl1"), ("id"))], [[5]], [ColLabel.pair ("lvl0") ("id")], [[7]]⟩ rfl

/-- `dedupGo` leaves a list of fresh, duplicate-free keys unchanged. -/
theorem dedupGo_of_nodup :
    ∀ (l : List String) (seen : List String), (∀ k ∈ l, k ∉ seen) →
      l.Nodup → dedupGo seen l = l := by
  intro l
  induction l with
  | nil => intro seen _ _; rfl
  | cons k ks ih =>
    intro seen hfresh hnd
    rw [dedupGo, if_neg (hfresh k (List.mem_cons_self k ks))]
    congr 1
    refine ih (k :: seen) ?_ (List.nodup_cons.mp hnd).2
    intro x hx
    simp only [List.mem_cons, not_or]
    exact ⟨fun he => (List.nodup_cons.mp hnd).1 (he ▸ hx),
      hfresh x (List.mem_cons_of_mem k hx)⟩

/-- The OrderedDict key list of a duplicate-free list is the list itself. -/
theorem dedupKeys_of_nodup (l : List String) (h : l.Nodup) : dedupKeys l = l :=
  dedupGo_of_nodup l [] (fun _ _ hx => (List.not_mem_nil _) hx) h

/-- A key that is bound by no pair of the association list is not found. -/
theorem lookupIdx_none_of_not_mem (A : List (String × Int)) (k : String)
    (h : k ∉ A.map Prod.fst) : lookupIdx A k = none := by
  induction A with
  | nil => rfl
  | cons p A ih =>
    simp only [List.map_cons, List.mem_cons, not_or] at h
    have hne : ¬ p.1 = k := fun he => h.1 he.symm
    rw [lookupIdx, if_neg hne]
    exact ih h.2

/-- Lookup skips a block that does not bind the key. -/
theorem lookupIdx_append_of_none (A B : List (String × Int)) (k : String)
    (h : lookupIdx A k = none) : lookupIdx (A ++ B) k = lookupIdx B k := by
  induction A with
  | nil => rfl
  | cons p A ih =>
    rw [lookupIdx] at h
    by_cases hp : p.1 = k
    · rw [if_pos hp] at h; exact absurd h (by simp)
    · rw [if_neg hp] at h
      rw [List.cons_append, lookupIdx, if_neg hp]
      exact ih h

/-- `updateAssoc` distributes over append. -/
theorem updateAssoc_append (A B : List (String × Int)) (k : String) (v : Int) :
    updateAssoc (A ++ B) k v = updateAssoc A k v ++ updateAssoc B k v := by
  simp [updateAssoc]

/-- `updateAssoc` is the identity on a block that does not bind the key. -/
theorem updateAssoc_of_not_mem (A : List (String × Int)) (k : String) (v : Int)
    (h : k ∉ A.map Prod.fst) : updateAssoc A k v = A := by
  induction A with
  | nil => rfl
  | cons p A ih =>
    simp only [List.map_cons, List.mem_cons, not_or] at h
    have hne : ¬ p.1 = k := fun he => h.1 he.symm
    have hA := ih h.2
    simp only [updateAssoc] at hA
    simp only [updateAssoc, List.map_cons, if_neg hne, hA]

/-- The constructor loop of lines 266-273 on duplicate-free table names:
starting from an already-assigned block `A` that binds none of the names,
it succeeds and assigns each table its position. -/
theorem assignIndices_nodup :
    ∀ (ts : List CatTable) (A : List (String × Int)) (i : Nat),
      (∀ t ∈ ts, t.name ∉ A.map Prod.fst) →
      ((ts.map CatTable.name).Nodup) →
      assignIndices (A ++ ts.map (fun t => (t.name, (-1 : Int)))) i ts =
        Except.ok (A ++ idxFrom i ts) := by
  intro ts
  induction ts with
  | nil => intro A i _ _; simp [assignIndices, idxFrom]
  | cons t ts ih =>
    intro A i hA hnd
    have hAt : t.name ∉ A.map Prod.fst := hA t (List.mem_cons_self t ts)
    rw [List.map_cons, List.nodup_cons] at hnd
    have hmapfst : (ts.map (fun u => (u.name, (-1 : Int)))).map Prod.fst =
        ts.map CatTable.name := by
      simp [List.map_map]
    have hlk : lookupIdx
        (A ++ (t.name, (-1 : Int)) :: ts.map (fun u => (u.name, (-1 : Int))))
        t.name = some (-1) := by
      rw [lookupIdx_append_of_none _ _ _ (lookupIdx_none_of_not_mem _ _ hAt)]
      simp [lookupIdx]
    have hupd : updateAssoc
        (A ++ (t.name, (-1 : Int)) :: ts.map (fun u => (u.name, (-1 : Int))))
        t.name (i : Int) =
        (A ++ [(t.name, (i : Int))]) ++ ts.map (fun u => (u.name, (-1 : Int))) := by
      rw [updateAssoc_append, updateAssoc_of_not_mem _ _ _ hAt]
      have h2 : updateAssoc (ts.map (fun u => (u.name, (-1 : Int)))) t.name
          (i : Int) = ts.map (fun u => (u.name, (-1 : Int))) :=
        updateAssoc_of_not_mem _ _ _ (by rw [hmapfst]; exact hnd.1)
      simp only [updateAssoc, List.map_cons] at h2 ⊢
      simp [h2, List.append_assoc]
    have hfresh : ∀ u ∈ ts, u.name ∉ (A ++ [(t.name, (i : Int))]).map Prod.fst := by
      intro u hu
      simp only [List.map_append, List.mem_append, not_or]
      refine ⟨hA u (List.mem_cons_of_mem t hu), ?_⟩
      simp only [List.map_cons, List.map_nil, List.mem_singleton]
      intro he
      exact hnd.1 (he ▸ List.mem_map_of_mem CatTable.name hu)
    have hih := ih (A ++ [(t.name, (i : Int))]) (i + 1) hfresh hnd.2
    simp only [List.map_cons, assignIndices, hlk]
    rw [if_neg (by omega), hupd, hih, idxFrom]
    simp [List.append_assoc]

/-- The alignment loop of lines 274-288 on the index built for the tables
starting at position `i`: when every table has exactly `L` rows it succeeds
and produces `category_tables` in order. -/
theorem checkAlignment_idxFrom_ok :
    ∀ (ts2 full : List CatTable) (i L : Nat),
      (∀ k, full.get? (i + k) = ts2.get? k) →
      (∀ t ∈ ts2, t.nrows = L) →
      checkAlignment full L (idxFrom i ts2) =
        Except.ok (ts2.map (fun t => (t.name, t.nrows))) := by
  intro ts2
  induction ts2 with
  | nil => intro full i L _ _; simp [idxFrom, checkAlignment]
  | cons t ts ih =>
    intro full i L hget hal
    have hft : full.get? i = some t := by simpa using hget 0
    have hrec := ih full (i + 1) L
      (fun k => by simpa [Nat.add_assoc, Nat.add_comm 1 k] using hget (k + 1))
      (fun u hu => hal u (List.mem_cons_of_mem t hu))
    simp only [idxFrom, checkAlignment, Int.toNat_natCast, hft, hrec]
    rw [if_neg (by omega), if_neg (not_not_intro (hal t (List.mem_cons_self t ts)))]
    simp

/-- The alignment loop of lines 274-288 stops at the first misaligned table
with the ValueError reporting its name, its row count and the expected row
count. -/
theorem checkAlignment_idxFrom_err :
    ∀ (pre : List CatTable) (c : CatTable) (rest full : List CatTable) (i L : Nat),
      (∀ k, full.get? (i + k) = (pre ++ c :: rest).get? k) →
      (∀ t ∈ pre, t.nrows = L) → c.nrows ≠ L →
      checkAlignment full L (idxFrom i (pre ++ c :: rest)) =
        Except.error (AErr.misaligned c.name c.nrows L) := by
  intro pre
  induction pre with
  | nil =>
    intro c rest full i L hget _ hc
    have hfc : full.get? i = some c := by simpa using hget 0
    simp only [List.nil_append, idxFrom, checkAlignment, Int.toNat_natCast, hfc]
    rw [if_neg (by omega), if_pos hc]
  | cons t pre ih =>
    intro c rest full i L hget hal hc
    have hft : full.get? i = some t := by simpa using hget 0
    have hrec := ih c rest full (i + 1) L
      (fun k => by
        have := hget (k + 1)
        simpa [Nat.add_assoc, Nat.add_comm 1 k] using this)
      (fun u hu => hal u (List.mem_cons_of_mem t hu)) hc
    simp only [List.cons_append, idxFrom, checkAlignment, Int.toNat_natCast,
      List.append_eq, hft, hrec]
    rw [if_neg (by omega),
      if_neg (not_not_intro (hal t (List.mem_cons_self t pre)))]

/-- Every category recorded by a successful alignment check has exactly the
expected number of rows. -/
theorem checkAlignment_ok_aligned :
    ∀ (lk : List (String × Int)) (tables : List CatTable) (L : Nat)
      (dts : List (String × Nat)),
      checkAlignment tables L lk = Except.ok dts → ∀ p ∈ dts, p.2 = L := by
  intro lk
  induction lk with
  | nil =>
    intro tables L dts h p hp
    simp only [checkAlignment] at h
    cases h
    simp at hp
  | cons q lk ih =>
    intro tables L dts h p hp
    rw [checkAlignment] at h
    split at h
    · exact absurd h (by simp)
    · split at h
      · exact absurd h (by simp)
      · rename_i cat hcat
        split at h
        · exact absurd h (by simp)
        · rename_i hrows
          split at h
          · exact absurd h (by simp)
          · rename_i rest2 hrest
            cases h
            rcases List.mem_cons.mp hp with h1 | h1
            · rw [h1]
              exact not_not.mp hrows
            · exact ih tables L rest2 hrest p h1

/-- A successfully constructed AlignedDynamicTable satisfies the alignment
invariant. -/
theorem alignedInit_ok_aligned (mainIds : List Nat)
    (tabs : Option (List CatTable)) (cats : Option (List String))
    (s : AlignedState) (h : alignedInit mainIds tabs cats = Except.ok s) :
    alignedInv s := by
  unfold alignedInit at h
  cases tabs with
  | none =>
    cases cats with
    | some _ => exact absurd h (by simp)
    | none =>
      cases h
      intro p hp
      simp at hp
  | some ts =>
    simp only at h
    split at h
    · exact absurd h (by simp)
    · split at h
      · exact absurd h (by simp)
      · rename_i lk hlk
        split at h
        · exact absurd h (by simp)
        · rename_i dts hdts
          cases h
          intro p hp
          exact checkAlignment_ok_aligned lk ts (autoMainIds mainIds ts).length
            dts hdts p hp

/-- Every single successful operation preserves the alignment invariant. -/
theorem applyOp_preserves (s s2 : AlignedState) (op : AOp)
    (hinv : alignedInv s) (h : applyOp s op = Except.ok s2) : alignedInv s2 := by
  cases op with
  | addCategory c =>
    simp only [applyOp, add_category] at h
    split at h
    · exact absurd h (by simp)
    · rename_i hrows
      split at h
      · exact absurd h (by simp)
      · cases h
        intro p hp
        rcases List.mem_append.mp hp with h1 | h1
        · exact hinv p h1
        · rw [List.mem_singleton.mp h1]
          exact not_not.mp hrows
  | addRow sup rid enf =>
    simp only [applyOp, add_row] at h
    split at h
    · exact absurd h (by simp)
    · split at h
      · exact absurd h (by simp)
      · cases h
        intro p hp
        simp only [List.mem_map] at hp
        obtain ⟨q, hq, rfl⟩ := hp
        simp [hinv q hq]
  | addColumn cat =>
    cases cat with
    | none =>
      simp only [applyOp, add_column] at h
      cases h
      exact hinv
    | some c =>
      simp only [applyOp, add_column] at h
      split at h
      · cases h
        exact hinv
      · exact absurd h (by simp)

/-- A successful run of operations preserves the alignment invariant. -/
theorem runOps_preserves :
    ∀ (ops : List AOp) (s s2 : AlignedState), alignedInv s →
      runOps s ops = Except.ok s2 → alignedInv s2 := by
  intro ops
  induction ops with
  | nil =>
    intro s s2 hinv h
    cases h
    exact hinv
  | cons op ops ih =>
    intro s s2 hinv h
    rw [runOps] at h
    split at h
    · exact absurd h (by simp)
    · rename_i s1 h1
      exact ih s1 s2 (applyOp_preserves s s1 op hinv h1) h

/-- `autoMainIds` does not touch a non-empty main id column. -/
theorem autoMainIds_of_ne_nil (mainIds : List Nat) (ts : List CatTable)
    (h : mainIds ≠ []) : autoMainIds mainIds ts = mainIds := by
  have he : mainIds.isEmpty = false := by
    cases mainIds with
    | nil => exact absurd rfl h
    | cons a l => rfl
  cases ts with
  | nil => rfl
  | cons t0 ts1 => simp [autoMainIds, he]

/-- Claim C2: (1) every AlignedDynamicTable state reached by a successful
constructor call followed by any sequence of successful add_category,
add_row and add_column calls satisfies the alignment invariant: every
category table has exactly as many rows as the main table; (2) add_category
with a table whose row count differs fails with the alignment error
reporting the actual and the expected row count (and, the embedding being
functional, leaves the state unchanged — in the source the check precedes
every mutation); (3) constructing with a category list whose first
misaligned table is c (names duplicate-free, main ids supplied) fails with
the alignment error reporting the actual and the expected row count. -/
theorem c2_alignment_invariant :
    (∀ (mainIds : List Nat) (tabs : Option (List CatTable))
       (cats : Option (List String)) (s0 : AlignedState) (ops : List AOp)
       (s : AlignedState),
       alignedInit mainIds tabs cats = Except.ok s0 →
       runOps s0 ops = Except.ok s → alignedInv s) ∧
    (∀ (s : AlignedState) (c : CatTable), c.nrows ≠ s.mainIds.length →
       add_category s c =
         Except.error (AErr.misaligned c.name c.nrows s.mainIds.length)) ∧
    (∀ (mainIds : List Nat) (pre : List CatTable) (c : CatTable)
       (rest : List CatTable), mainIds ≠ [] →
       (((pre ++ c :: rest).map CatTable.name).Nodup) →
       (∀ t ∈ pre, t.nrows = mainIds.length) → c.nrows ≠ mainIds.length →
       alignedInit mainIds (some (pre ++ c :: rest)) none =
         Except.error (AErr.misaligned c.name c.nrows mainIds.length)) := by
  refine ⟨?_, ?_, ?_⟩
  · intro mainIds tabs cats s0 ops s h0 hrun
    exact runOps_preserves ops s0 s
      (alignedInit_ok_aligned mainIds tabs cats s0 h0) hrun
  · intro s c hc
    rw [add_category, if_pos hc]
  · intro mainIds pre c rest hne hnd hal hc
    have hassign := assignIndices_nodup (pre ++ c :: rest) [] 0
      (fun t _ => List.not_mem_nil t.name) hnd
    simp only [List.nil_append] at hassign
    have hcomp0 : (dedupKeys ((pre ++ c :: rest).map CatTable.name)).map
        (fun k => (k, (-1 : Int))) =
        (pre ++ c :: rest).map (fun t => (t.name, (-1 : Int))) := by
      rw [dedupKeys_of_nodup _ hnd, List.map_map]
      rfl
    have hchk := checkAlignment_idxFrom_err pre c rest (pre ++ c :: rest) 0
      mainIds.length (fun k => by simp) hal hc
    unfold alignedInit
    simp only [Option.getD]
    rw [if_neg (by simp), hcomp0,
      autoMainIds_of_ne_nil mainIds (pre ++ c :: rest) hne]
    simp only [hassign, hchk]

/-- Claim C2 (witness): a concrete aligned state, a concrete rejected
add_category reporting 3 rows where 2 were expected, and a concrete
rejected construction reporting 5 rows where 2 were expected. -/
theorem c2_witness :
    alignedInv ⟨[0, 1], [(("cat1"), 2)]⟩ ∧
    add_category ⟨[0, 1], []⟩ ⟨("cat1"), 3⟩ =
      Except.error (AErr.misaligned ("cat1") 3 2) ∧
    alignedInit [0, 1] (some [⟨("cat1"), 2⟩, ⟨("cat2"), 5⟩]) none =
      Except.error (AErr.misaligned ("cat2") 5 2) := by
  refine ⟨?_, ?_, ?_⟩
  · exact c2_alignment_invariant.1 [0, 1] (some [⟨("cat1"), 2⟩]) none
      ⟨[0, 1], [(("cat1"), 2)]⟩ [] ⟨[0, 1], [(("cat1"), 2)]⟩ rfl rfl
  · exact c2_alignment_invariant.2.1 ⟨[0, 1], []⟩ ⟨("cat1"), 3⟩ (by decide)
  · exact c2_alignment_invariant.2.2 [0, 1] [⟨("cat1"), 2⟩] ⟨("cat2"), 5⟩ []
      (by decide) (by decide) (by decide) (by decide)

/-- Claim C10: constructing an AlignedDynamicTable from a non-empty list of
category tables (duplicate-free names, all with the same row count as the
first) while the main id column is empty succeeds: the main ids are
silently auto-populated with 0 .. len(first table) - 1 before the alignment
check, so len(main) equals the first category table's row count instead of
the construction failing against a zero-row main table. -/
theorem c10_auto_populate_main_ids (t0 : CatTable) (rest : List CatTable)
    (hnd : (((t0 :: rest).map CatTable.name).Nodup))
    (hal : ∀ t ∈ t0 :: rest, t.nrows = t0.nrows) :
    alignedInit [] (some (t0 :: rest)) none =
      Except.ok ⟨List.range t0.nrows,
        (t0 :: rest).map (fun t => (t.name, t.nrows))⟩ := by
  have hassign := assignIndices_nodup (t0 :: rest) [] 0
    (fun t _ => List.not_mem_nil t.name) hnd
  simp only [List.nil_append] at hassign
  have hcomp0 : (dedupKeys ((t0 :: rest).map CatTable.name)).map
      (fun k => (k, (-1 : Int))) =
      (t0 :: rest).map (fun t => (t.name, (-1 : Int))) := by
    rw [dedupKeys_of_nodup _ hnd, List.map_map]
    rfl
  have hmain : autoMainIds [] (t0 :: rest) = List.range t0.nrows := by
    simp [autoMainIds]
  have hchk := checkAlignment_idxFrom_ok (t0 :: rest) (t0 :: rest) 0
    (List.range t0.nrows).length (fun k => by simp)
    (fun t ht => by rw [List.length_range]; exact hal t ht)
  unfold alignedInit
  simp only [Option.getD]
  rw [if_neg (by simp), hcomp0, hmain]
  simp only [hassign, hchk]

/-- Claim C10 (witness): two 3-row category tables and an empty main table:
construction succeeds with main ids 0, 1, 2. -/
theorem c10_witness :
    alignedInit [] (some [⟨("electrodes"), 3⟩, ⟨("stimuli"), 3⟩]) none =
      Except.ok ⟨[0, 1, 2], [(("electrodes"), 3), (("stimuli"), 3)]⟩ := by
  have h := c10_auto_populate_main_ids ⟨("electrodes"), 3⟩ [⟨("stimuli"), 3⟩]
    (by decide) (by decide)
  simpa using h

end NdxIcephysMeta
